import Mathlib

/-
Verification of the batch video conversion pipeline (AIO_Python.py).

The program is shallowly embedded: external subprocess results (ffprobe
metadata, ffmpeg exit status / timeout / output existence) are supplied as
oracle data attached to each file record, filesystem state is a finite set
of paths, and the two persisted sets (processed identities and seen
fingerprints) are carried explicitly. Per-file processing is modelled
sequentially; the thread pool of the source program is modelled as an
arbitrary processing order over the scanned file list.
-/

namespace BatchConvert

/-- Keys of the TEXT_CODECS table (AIO_Python.py lines 41-47). The mapped
extension values of the Python dict are never read anywhere in the program;
only membership of a codec name among the keys is used, so the embedding
keeps the key list. -/
def TEXT_CODECS : List String := ["subrip", "ass", "ssa", "mov_text", "webvtt"]

/-- Configuration options (lines 50-52). SKIP_4K_OR_HDR is True in the
source; it is kept as a parameter so that theorems about the policy flag
are meaningful. -/
structure Config where
  skip_4k_or_hdr : Bool
deriving DecidableEq

/-- The source configuration: SKIP_4K_OR_HDR = True (line 50). -/
def sourceConfig : Config := { skip_4k_or_hdr := true }

/-- One video stream as reported by ffprobe (fields read at lines 144-149).
codec_name is an Option: a missing field defaults to the string unknown via
dict.get. -/
structure VStream where
  codec_name : Option String
  width : Nat
  height : Nat
  color_transfer : String
  pix_fmt : String
deriving DecidableEq

/-- One audio stream as reported by ffprobe (line 153). -/
structure AStream where
  codec_name : Option String
deriving DecidableEq

/-- One subtitle stream as reported by ffprobe (lines 157-163). The index
field is the global container stream index that ffprobe reports in its
JSON; the program never reads it (it enumerates the subtitle list
instead), and it is kept here precisely so that theorems can distinguish
the enumerated position from the container index. language models
tags.language, with the empty string for an absent tag. -/
structure SStream where
  index : Nat
  codec_name : Option String
  language : String
deriving DecidableEq

/-- The three ffprobe query results for one file (run_ffprobe with stream
selectors v, a, s; lines 142-155). A failed or empty query is the empty
stream list. -/
structure Probe where
  vstreams : List VStream
  astreams : List AStream
  sstreams : List SStream
deriving DecidableEq

/-- The info dict built by check_video_info (lines 131-164). -/
structure VideoInfo where
  video_codec : String
  audio_codec : String
  text_sub_tracks : List (Nat × String × String)
  image_sub_tracks : List (Nat × String × String)
  width : Nat
  height : Nat
  color_transfer : String
  pix_fmt : String
deriving DecidableEq

/-- The subtitle classification loop of check_video_info (lines 157-163):
for idx, stream in enumerate(streams), a codec among the TEXT_CODECS keys
is appended to the text list, hdmv_pgs_subtitle to the image list, and any
other codec is ignored. The Nat argument is the running enumerate
counter. -/
def classifySubsFrom : Nat → List SStream → List (Nat × String × String) × List (Nat × String × String)
  | _, [] => ([], [])
  | i, s :: rest =>
    let r := classifySubsFrom (i + 1) rest
    let codec := s.codec_name.getD "unknown"
    if TEXT_CODECS.contains codec then
      ((i, codec, s.language) :: r.1, r.2)
    else if codec = "hdmv_pgs_subtitle" then
      (r.1, (i, codec, s.language) :: r.2)
    else
      r

/-- check_video_info (lines 131-164): defaults, then the first video
stream's fields, the first audio stream's codec, and the classified
subtitle tracks. -/
def check_video_info (p : Probe) : VideoInfo :=
  let base : VideoInfo :=
    { video_codec := "unknown", audio_codec := "unknown",
      text_sub_tracks := [], image_sub_tracks := [],
      width := 0, height := 0, color_transfer := "", pix_fmt := "" }
  let withV :=
    match p.vstreams with
    | [] => base
    | s :: _ =>
      { base with video_codec := s.codec_name.getD "unknown",
                  width := s.width, height := s.height,
                  color_transfer := s.color_transfer, pix_fmt := s.pix_fmt }
  let withA :=
    match p.astreams with
    | [] => withV
    | a :: _ => { withV with audio_codec := a.codec_name.getD "unknown" }
  let subs := classifySubsFrom 0 p.sstreams
  { withA with text_sub_tracks := subs.1, image_sub_tracks := subs.2 }

/-- is_4k_or_hdr (lines 166-170). -/
def is_4k_or_hdr (width height : Nat) (color_transfer : String) : Bool :=
  if 3840 ≤ width ∧ 2160 ≤ height then true
  else (["smpte2084", "arib-std-b67", "pq"] : List String).contains color_transfer

/-- Outcome of one subprocess.run call on an encoder command, supplied as
oracle data: whether the call raised TimeoutExpired, its exit code
otherwise, and whether the destination path exists after the call. -/
structure EncodeAttempt where
  timedOut : Bool
  returncode : Int
  dstExists : Bool
deriving DecidableEq

/-- Result of convert_to_mp4 together with whether the CPU command was ever
run (the Python function only returns the Bool; cpuAttempted records
whether control reached the second subprocess.run, for reasoning about the
fallback path). -/
structure ConvertResult where
  success : Bool
  cpuAttempted : Bool
deriving DecidableEq

/-- convert_to_mp4 (lines 172-214), control flow over the two subprocess
calls. The GPU attempt: on TimeoutExpired the function returns False at
line 196 without reaching the CPU command; on exit 0 with the destination
present it returns True; otherwise it falls through to the CPU attempt,
which succeeds iff it exits 0 with the destination present and returns
False on its own timeout. -/
def convert_to_mp4 (gpu cpu : EncodeAttempt) : ConvertResult :=
  if gpu.timedOut then { success := false, cpuAttempted := false }
  else if gpu.returncode = 0 ∧ gpu.dstExists = true then
    { success := true, cpuAttempted := false }
  else if cpu.timedOut then { success := false, cpuAttempted := true }
  else { success := decide (cpu.returncode = 0) && cpu.dstExists, cpuAttempted := true }

/-- Whether the destination temp file still exists after a failed
convert_to_mp4 call. The last subprocess to run against dst determines it:
on a GPU timeout the killed GPU process may have left a partial dst (line
196 returns before the CPU command is built), and in every other failure
case the CPU command ran last, so its post-state governs. The failing call
never deletes this stranded output, and on a later run the source file's
early return at lines 244-246 precedes cleanup_temp_files, so the stranded
file survives to be scanned as an ordinary video file. Meaningful only
when the conversion failed; the success path renames dst away. -/
def convertResidual (gpu cpu : EncodeAttempt) : Bool :=
  if gpu.timedOut then gpu.dstExists else cpu.dstExists

/-- Audio arguments shared by both strategies (lines 184-187 and
203-206): stream copy when the source audio codec is in the accepted set,
otherwise re-encode to aac at 192k. -/
def audio_args (audio_codec : String) : List String :=
  if (["aac", "mp3", "ac3"] : List String).contains audio_codec then
    ["-c:a", "copy"]
  else
    ["-c:a", "aac", "-b:a", "192k"]

/-- filter_args (line 176): a pix_fmt containing the substring 10 forces a
downsample filter to yuv420p. -/
def filter_args (pix_fmt : String) : List String :=
  if 2 ≤ (pix_fmt.splitOn "10").length then ["-vf", "format=yuv420p"] else []

/-- The ffmpeg binary name (line 30). -/
def FFMPEG : String := "ffmpeg"

/-- The GPU command list (lines 179-188). -/
def gpu_cmd (src dst : String) (info : VideoInfo) : List String :=
  [FFMPEG, "-hide_banner", "-y", "-hwaccel", "cuda", "-i", src]
    ++ filter_args info.pix_fmt
    ++ ["-c:v", "h264_nvenc", "-preset", "p5", "-cq", "20", "-pix_fmt", "yuv420p"]
    ++ audio_args info.audio_codec
    ++ ["-f", "mp4", dst]

/-- The CPU command list (lines 199-207). -/
def cpu_cmd (src dst : String) (info : VideoInfo) : List String :=
  [FFMPEG, "-hide_banner", "-y", "-i", src]
    ++ filter_args info.pix_fmt
    ++ ["-c:v", "libx264", "-crf", "18", "-pix_fmt", "yuv420p"]
    ++ audio_args info.audio_codec
    ++ ["-f", "mp4", dst]

/-- Output name for a text subtitle track (line 218): stem, then the
language tag or trackN for an empty tag, then the srt extension. -/
def text_sub_out_name (stem : String) (track_index : Nat) (lang_tag : String) : String :=
  stem ++ "." ++ (if lang_tag = "" then "track" ++ Nat.repr track_index else lang_tag) ++ ".srt"

/-- The extraction command for one text subtitle track (line 222). The map
selector is the string 0: followed by the recorded track index. -/
def text_sub_cmd (videoFile stem : String) (t : Nat × String × String) : List String :=
  [FFMPEG, "-hide_banner", "-y", "-i", videoFile,
   "-map", "0:" ++ Nat.repr t.1, "-c:s", "srt", text_sub_out_name stem t.1 t.2.2]

/-- extract_text_subs_if_any (lines 216-229) as the list of encoder
commands it issues: one per track whose output name does not already exist
on disk. The subsequent success check and language-detection rename act
only on sidecar files and are not needed by the claims. -/
def extract_text_subs_if_any (videoFile stem : String)
    (tracks : List (Nat × String × String)) (disk : Finset String) : List (List String) :=
  tracks.filterMap fun t =>
    if text_sub_out_name stem t.1 t.2.2 ∈ disk then none
    else some (text_sub_cmd videoFile stem t)

/-- Output name for an image subtitle track (line 233). -/
def image_sub_out_name (stem : String) (track_index : Nat) (lang_tag : String) : String :=
  stem ++ "." ++ (if lang_tag = "" then "track" ++ Nat.repr track_index else lang_tag) ++ ".sup"

/-- The extraction command for one image subtitle track (line 237). -/
def image_sub_cmd (videoFile stem : String) (t : Nat × String × String) : List String :=
  [FFMPEG, "-hide_banner", "-y", "-i", videoFile,
   "-map", "0:" ++ Nat.repr t.1, image_sub_out_name stem t.1 t.2.2]

/-- extract_image_subs_if_any (lines 231-240) as the list of commands it
issues. -/
def extract_image_subs_if_any (videoFile stem : String)
    (tracks : List (Nat × String × String)) (disk : Finset String) : List (List String) :=
  tracks.filterMap fun t =>
    if image_sub_out_name stem t.1 t.2.2 ∈ disk then none
    else some (image_sub_cmd videoFile stem t)

/-- The two persisted sets (lines 37-38, 55-75): processed models the
handled-identity set loaded from processed.txt, hashes the fingerprint set
loaded from hashes_db.txt. -/
structure PState where
  processed : Finset String
  hashes : Finset String
deriving DecidableEq

/-- One discovered file together with the oracle data describing how the
external world answers for it: path is str(video_file.resolve()), stem_mp4
is the resolved path of video_file.with_suffix(mp4) (the rename target at
line 281), temp_path is the resolved collision-resistant temporary name
generated by get_temp_conversion_filename (lines 86-93) for this file's
conversion, suffix is video_file.suffix.lower(), hash is the fingerprint
computed by compute_file_hash with none modelling the call raising
IOError, probe is the ffprobe answer for the file, probeAfter the ffprobe
answer for the converted file (line 288), and gpu and cpu the two encoder
attempt outcomes. -/
structure FileRec where
  path : String
  stem_mp4 : String
  temp_path : String
  suffix : String
  hash : Option String
  probe : Probe
  probeAfter : Probe
  gpu : EncodeAttempt
  cpu : EncodeAttempt
deriving DecidableEq

/-- Which terminal branch of process_video fired for a file. hashError
models compute_file_hash raising out of the function. -/
inductive Outcome where
  | hashError
  | skipAlreadyProcessed
  | skipDuplicate
  | skipUnprobeable
  | skipPolicy
  | alreadyOptimal
  | convertedOk
  | conversionFailed
deriving DecidableEq

/-- Observable per-file actions of process_video, in program order. -/
inductive Effect where
  | cleanupTemps (path : String)
  | unlink (path : String)
  | attemptConvert (path : String)
  | renameTemp (toPath : String)
  | extractTextSubs (tracks : List (Nat × String × String))
  | extractImageSubs (tracks : List (Nat × String × String))
deriving DecidableEq

/-- Result of one process_video call: the two sets, the set of video file
paths on disk, the actions performed, and the branch taken. -/
structure PVOut where
  st : PState
  disk : Finset String
  effects : List Effect
  outcome : Outcome
deriving DecidableEq

/-- The subtitle-extraction tail of process_video (lines 290-293): each
extractor is invoked only when its track list is non-empty. -/
def subEffects (info : VideoInfo) : List Effect :=
  (if info.text_sub_tracks = [] then [] else [Effect.extractTextSubs info.text_sub_tracks])
    ++ (if info.image_sub_tracks = [] then [] else [Effect.extractImageSubs info.image_sub_tracks])

/-- Lines 260-296 of process_video, after the hash has been recorded (st1
already contains the fingerprint): the unprobeable skip (lines 262-265),
the 4K/HDR policy skip (lines 267-270), the already-optimized branch
(lines 273-275, which falls through to subtitle extraction), and the
conversion branch (lines 277-288) with its success and failure paths,
followed by subtitle extraction and the two identity insertions (lines
290-296). On failure the function returns at line 287 without deleting
the destination temp file, so when the last encoder attempt left output
behind (convertResidual) the stranded temp path joins the disk. -/
def processAfterDedup (cfg : Config) (f : FileRec) (st1 : PState) (disk : Finset String) : PVOut :=
  let info := check_video_info f.probe
  if info.video_codec = "unknown" ∧ info.audio_codec = "unknown" then
    { st := { processed := insert f.path st1.processed, hashes := st1.hashes },
      disk := disk, effects := [Effect.cleanupTemps f.path],
      outcome := Outcome.skipUnprobeable }
  else if cfg.skip_4k_or_hdr = true ∧ is_4k_or_hdr info.width info.height info.color_transfer = true then
    { st := { processed := insert f.path st1.processed, hashes := st1.hashes },
      disk := disk, effects := [Effect.cleanupTemps f.path],
      outcome := Outcome.skipPolicy }
  else if info.video_codec = "h264" ∧ (["aac", "mp3", "ac3"] : List String).contains info.audio_codec = true ∧ f.suffix = ".mp4" then
    { st := { processed := insert f.path st1.processed, hashes := st1.hashes },
      disk := disk, effects := Effect.cleanupTemps f.path :: subEffects info,
      outcome := Outcome.alreadyOptimal }
  else if (convert_to_mp4 f.gpu f.cpu).success = true then
    let info2 := check_video_info f.probeAfter
    { st := { processed := insert f.stem_mp4 (insert f.path st1.processed), hashes := st1.hashes },
      disk := insert f.stem_mp4 (disk.erase f.path),
      effects := [Effect.cleanupTemps f.path, Effect.attemptConvert f.path,
                  Effect.unlink f.path, Effect.renameTemp f.stem_mp4] ++ subEffects info2,
      outcome := Outcome.convertedOk }
  else
    { st := { processed := insert f.path st1.processed, hashes := st1.hashes },
      disk := if convertResidual f.gpu f.cpu = true then insert f.temp_path disk else disk,
      effects := [Effect.cleanupTemps f.path, Effect.attemptConvert f.path],
      outcome := Outcome.conversionFailed }

/-- Lines 251-258 of process_video, dispatching on the hash step: a raised
IOError leaves both sets untouched (only the temp-file cleanup of line 249
has happened), a fingerprint already in the seen set deletes the file and
marks the identity handled without recording the fingerprint again, and a
fresh fingerprint is recorded before continuing. -/
def processHash (cfg : Config) (f : FileRec) (st : PState) (disk : Finset String) :
    Option String → PVOut
  | none =>
    { st := st, disk := disk, effects := [Effect.cleanupTemps f.path],
      outcome := Outcome.hashError }
  | some h =>
    if h ∈ st.hashes then
      { st := { processed := insert f.path st.processed, hashes := st.hashes },
        disk := disk.erase f.path,
        effects := [Effect.cleanupTemps f.path, Effect.unlink f.path],
        outcome := Outcome.skipDuplicate }
    else
      processAfterDedup cfg f { processed := st.processed, hashes := insert h st.hashes } disk

/-- process_video (lines 242-296): the already-processed early return of
lines 244-246, then temp cleanup, hashing and the rest. -/
def processVideo (cfg : Config) (f : FileRec) (st : PState) (disk : Finset String) : PVOut :=
  if f.path ∈ st.processed then
    { st := st, disk := disk, effects := [], outcome := Outcome.skipAlreadyProcessed }
  else
    processHash cfg f st disk f.hash

/-- Result of one whole run: final in-memory sets, final disk, all effects
in order, and whether some per-file task raised (an uncaught IOError from
the hash step, re-raised by future.result() in main). -/
structure RunOut where
  st : PState
  disk : Finset String
  effects : List Effect
  raised : Bool
deriving DecidableEq

/-- The worker loop of main (lines 318-324) under a sequential
interleaving: every submitted file is processed (the executor context
manager waits for all submitted futures), and the run records whether any
per-file task raised. -/
def runAll (cfg : Config) : List FileRec → PState → Finset String → RunOut
  | [], st, disk => { st := st, disk := disk, effects := [], raised := false }
  | f :: rest, st, disk =>
    let r1 := processVideo cfg f st disk
    let r2 := runAll cfg rest r1.st r1.disk
    { st := r2.st, disk := r2.disk, effects := r1.effects ++ r2.effects,
      raised := decide (r1.outcome = Outcome.hashError) || r2.raised }

/-- Lines 323-327 of main: the state actually persisted at end of run. If
any future raised, future.result() re-raises before the save calls, so the
files on disk keep the state loaded at start of run; otherwise the
in-memory sets are written out. -/
def persistedAfter (loaded : PState) (r : RunOut) : PState :=
  if r.raised = true then loaded else r.st

/-- scan_video_files (lines 298-305) restricted to what the claims need:
the scanned files are exactly the video paths on disk, in sorted order. -/
def scanList (disk : Finset String) : List String :=
  disk.sort (· ≤ ·)

/-- One full pipeline run (main, lines 307-328): scan the disk, process
every scanned file in order. env is the deterministic external world,
mapping a path to its file record (probe answers, hash, encoder
outcomes). -/
def runScan (cfg : Config) (env : String → FileRec) (st : PState) (disk : Finset String) : RunOut :=
  runAll cfg ((scanList disk).map env) st disk

/-- The action vocabulary of the Policy Engine as the spec words it. -/
inductive Decision where
  | skipAlreadyProcessed
  | skipDuplicate
  | skipUnprobeable
  | skipPolicy
  | skipAlreadyOptimal
  | convert
deriving DecidableEq

/-- The decision visible in a process_video outcome: the branch taken,
with both conversion results mapping to the convert decision, and an
uncaught hash error yielding no decision at all. -/
def decisionOf : Outcome → Option Decision
  | Outcome.hashError => none
  | Outcome.skipAlreadyProcessed => some Decision.skipAlreadyProcessed
  | Outcome.skipDuplicate => some Decision.skipDuplicate
  | Outcome.skipUnprobeable => some Decision.skipUnprobeable
  | Outcome.skipPolicy => some Decision.skipPolicy
  | Outcome.alreadyOptimal => some Decision.skipAlreadyOptimal
  | Outcome.convertedOk => some Decision.convert
  | Outcome.conversionFailed => some Decision.convert

/-- Modelled from the spec: the pure decision function of claim C6,
first match wins, in the claimed order: handled identity, seen
fingerprint, both codecs unknown, policy flag with 4K or HDR, target codec
with target audio and target container, otherwise convert. -/
def specDecide (cfg : Config) (identity : String) (info : VideoInfo) (suffix : String)
    (fingerprint : String) (st : PState) : Decision :=
  if identity ∈ st.processed then Decision.skipAlreadyProcessed
  else if fingerprint ∈ st.hashes then Decision.skipDuplicate
  else if info.video_codec = "unknown" ∧ info.audio_codec = "unknown" then Decision.skipUnprobeable
  else if cfg.skip_4k_or_hdr = true ∧ is_4k_or_hdr info.width info.height info.color_transfer = true then Decision.skipPolicy
  else if info.video_codec = "h264" ∧ (["aac", "mp3", "ac3"] : List String).contains info.audio_codec = true ∧ suffix = ".mp4" then Decision.skipAlreadyOptimal
  else Decision.convert

end BatchConvert


namespace BatchConvert

/-- The early return of lines 244-246. -/
theorem processVideo_skip (cfg : Config) (f : FileRec) (st : PState) (disk : Finset String)
    (hp : f.path ∈ st.processed) :
    processVideo cfg f st disk
      = { st := st, disk := disk, effects := [], outcome := Outcome.skipAlreadyProcessed } := by
  unfold processVideo
  rw [if_pos hp]

/-- A raised IOError from the hash step. -/
theorem processVideo_hashNone (cfg : Config) (f : FileRec) (st : PState) (disk : Finset String)
    (hp : f.path ∉ st.processed) (hh : f.hash = none) :
    processVideo cfg f st disk
      = { st := st, disk := disk, effects := [Effect.cleanupTemps f.path],
          outcome := Outcome.hashError } := by
  unfold processVideo
  rw [if_neg hp, hh]
  rfl

/-- The duplicate branch of lines 252-256. -/
theorem processVideo_dup (cfg : Config) (f : FileRec) (st : PState) (disk : Finset String)
    (h : String) (hp : f.path ∉ st.processed) (hh : f.hash = some h) (hmem : h ∈ st.hashes) :
    processVideo cfg f st disk
      = { st := { processed := insert f.path st.processed, hashes := st.hashes },
          disk := disk.erase f.path,
          effects := [Effect.cleanupTemps f.path, Effect.unlink f.path],
          outcome := Outcome.skipDuplicate } := by
  unfold processVideo
  rw [if_neg hp, hh]
  simp only [processHash]
  rw [if_pos hmem]

/-- A fresh fingerprint is recorded and control continues past dedup. -/
theorem processVideo_fresh (cfg : Config) (f : FileRec) (st : PState) (disk : Finset String)
    (h : String) (hp : f.path ∉ st.processed) (hh : f.hash = some h) (hmem : h ∉ st.hashes) :
    processVideo cfg f st disk
      = processAfterDedup cfg f { processed := st.processed, hashes := insert h st.hashes } disk := by
  unfold processVideo
  rw [if_neg hp, hh]
  simp only [processHash]
  rw [if_neg hmem]

/-- Shape of the state produced by the post-dedup part of process_video:
either a skip or failed-without-residual shape (disk unchanged), the
successful-conversion shape, or the failed-with-stranded-output shape. -/
theorem processAfterDedup_state (cfg : Config) (f : FileRec) (st1 : PState) (disk : Finset String) :
    (processAfterDedup cfg f st1 disk).st.hashes = st1.hashes
      ∧ f.path ∈ (processAfterDedup cfg f st1 disk).st.processed
      ∧ ((processAfterDedup cfg f st1 disk).st.processed = insert f.path st1.processed
            ∧ (processAfterDedup cfg f st1 disk).disk = disk
          ∨ ((processAfterDedup cfg f st1 disk).st.processed
                = insert f.stem_mp4 (insert f.path st1.processed)
            ∧ (processAfterDedup cfg f st1 disk).disk = insert f.stem_mp4 (disk.erase f.path))
          ∨ ((processAfterDedup cfg f st1 disk).st.processed = insert f.path st1.processed
            ∧ (processAfterDedup cfg f st1 disk).disk = insert f.temp_path disk
            ∧ (convert_to_mp4 f.gpu f.cpu).success = false
            ∧ convertResidual f.gpu f.cpu = true)) := by
  simp only [processAfterDedup]
  split_ifs <;> simp_all [Finset.mem_insert]

/-- The post-dedup part never reports a hash error. -/
theorem processAfterDedup_outcome (cfg : Config) (f : FileRec) (st1 : PState) (disk : Finset String) :
    (processAfterDedup cfg f st1 disk).outcome ≠ Outcome.hashError := by
  simp only [processAfterDedup]
  split_ifs <;> simp

/-- Monotonicity of the handled set over one process_video call. -/
theorem processVideo_mono (cfg : Config) (f : FileRec) (st : PState) (disk : Finset String) :
    st.processed ⊆ (processVideo cfg f st disk).st.processed := by
  by_cases hp : f.path ∈ st.processed
  · rw [processVideo_skip cfg f st disk hp]
  · cases hh : f.hash with
    | none =>
      rw [processVideo_hashNone cfg f st disk hp hh]
    | some h =>
      by_cases hmem : h ∈ st.hashes
      · rw [processVideo_dup cfg f st disk h hp hh hmem]
        exact Finset.subset_insert _ _
      · rw [processVideo_fresh cfg f st disk h hp hh hmem]
        rcases processAfterDedup_state cfg f
            { processed := st.processed, hashes := insert h st.hashes } disk with ⟨_, _, hc⟩
        rcases hc with ⟨hpr, _⟩ | ⟨hpr, _⟩ | ⟨hpr, _, _, _⟩
        · rw [hpr]; exact Finset.subset_insert _ _
        · rw [hpr]
          exact (Finset.subset_insert _ _).trans (Finset.subset_insert _ _)
        · rw [hpr]; exact Finset.subset_insert _ _

/-- Unless the hash step raised, one process_video call records the file's
identity, and every path on the resulting disk was either already there or
is itself recorded as handled. -/
theorem processVideo_shape (cfg : Config) (f : FileRec) (st : PState) (disk : Finset String)
    (hr : (processVideo cfg f st disk).outcome ≠ Outcome.hashError)
    (hres : (convert_to_mp4 f.gpu f.cpu).success = true ∨ convertResidual f.gpu f.cpu = false) :
    f.path ∈ (processVideo cfg f st disk).st.processed
      ∧ ∀ q ∈ (processVideo cfg f st disk).disk,
          q ∈ disk ∨ q ∈ (processVideo cfg f st disk).st.processed := by
  by_cases hp : f.path ∈ st.processed
  · rw [processVideo_skip cfg f st disk hp]
    exact ⟨hp, fun q hq => Or.inl hq⟩
  · cases hh : f.hash with
    | none =>
      rw [processVideo_hashNone cfg f st disk hp hh] at hr
      exact absurd rfl hr
    | some h =>
      by_cases hmem : h ∈ st.hashes
      · rw [processVideo_dup cfg f st disk h hp hh hmem]
        exact ⟨Finset.mem_insert_self _ _, fun q hq => Or.inl (Finset.mem_of_mem_erase hq)⟩
      · rw [processVideo_fresh cfg f st disk h hp hh hmem]
        rcases processAfterDedup_state cfg f
            { processed := st.processed, hashes := insert h st.hashes } disk with ⟨_, hself, hc⟩
        refine ⟨hself, fun q hq => ?_⟩
        rcases hc with ⟨hpr, hd⟩ | ⟨hpr, hd⟩ | ⟨hpr, hd, hfl, hresid⟩
        · rw [hd] at hq; exact Or.inl hq
        · rw [hd] at hq
          rcases Finset.mem_insert.mp hq with hq | hq
          · right; rw [hpr, hq]; exact Finset.mem_insert_self _ _
          · exact Or.inl (Finset.mem_of_mem_erase hq)
        · rcases hres with hsucc | hnores
          · rw [hsucc] at hfl
            exact Bool.noConfusion hfl
          · rw [hnores] at hresid
            exact Bool.noConfusion hresid

/-- Monotonicity of the handled set over a whole run. -/
theorem runAll_mono (cfg : Config) :
    ∀ (files : List FileRec) (st : PState) (disk : Finset String),
      st.processed ⊆ (runAll cfg files st disk).st.processed := by
  intro files
  induction files with
  | nil => intro st disk; exact Finset.Subset.refl _
  | cons f rest ih =>
    intro st disk
    exact (processVideo_mono cfg f st disk).trans (ih _ _)

/-- If a run finished with no raised exception, no scanned file's failed
conversion strands a residual output, and every path on the starting disk
is either already handled or among the scanned paths, then every path on
the final disk is handled. -/
theorem runAll_coverage (cfg : Config) :
    ∀ (files : List FileRec) (st : PState) (disk : Finset String),
      (runAll cfg files st disk).raised = false →
      (∀ f ∈ files, (convert_to_mp4 f.gpu f.cpu).success = true
          ∨ convertResidual f.gpu f.cpu = false) →
      (∀ q ∈ disk, q ∈ st.processed ∨ q ∈ files.map FileRec.path) →
      ∀ q ∈ (runAll cfg files st disk).disk, q ∈ (runAll cfg files st disk).st.processed := by
  intro files
  induction files with
  | nil =>
    intro st disk _ _ hcov q hq
    rcases hcov q hq with hq1 | hq1
    · exact hq1
    · simp at hq1
  | cons f rest ih =>
    intro st disk hraise hresall hcov
    rw [runAll] at hraise
    simp only [Bool.or_eq_false_iff, decide_eq_false_iff_not] at hraise
    have hne : (processVideo cfg f st disk).outcome ≠ Outcome.hashError := hraise.1
    have hshape := processVideo_shape cfg f st disk hne (hresall f (List.mem_cons_self f rest))
    have hmain := ih (processVideo cfg f st disk).st (processVideo cfg f st disk).disk hraise.2
      (fun g hg => hresall g (List.mem_cons_of_mem f hg)) ?_
    · intro q hq
      rw [runAll]
      rw [runAll] at hq
      exact hmain q hq
    · intro q hq
      rcases hshape.2 q hq with hq1 | hq1
      · rcases hcov q hq1 with hq2 | hq2
        · exact Or.inl (processVideo_mono cfg f st disk hq2)
        · rcases List.mem_map.mp hq2 with ⟨g, hg, hgq⟩
          rcases List.mem_cons.mp hg with hg1 | hg1
          · left
            rw [← hgq, hg1]
            exact hshape.1
          · right
            exact List.mem_map.mpr ⟨g, hg1, hgq⟩
      · exact Or.inl hq1

/-- A run over files whose identities are all already handled changes
nothing: every file takes the early return of lines 244-246. -/
theorem runAll_noop (cfg : Config) :
    ∀ (files : List FileRec) (st : PState) (disk : Finset String),
      (∀ f ∈ files, f.path ∈ st.processed) →
      runAll cfg files st disk = { st := st, disk := disk, effects := [], raised := false } := by
  intro files
  induction files with
  | nil => intro st disk _; rfl
  | cons f rest ih =>
    intro st disk hall
    have h1 := processVideo_skip cfg f st disk (hall f (List.mem_cons_self f rest))
    have h2 := ih st disk (fun g hg => hall g (List.mem_cons_of_mem f hg))
    rw [runAll, h1]
    simp only [h2]
    rfl

end BatchConvert

namespace BatchConvert

/-- A 1920x1080 h264/aac probe answer with one subrip subtitle stream
whose global container stream index is 2. -/
def optProbe : Probe :=
  { vstreams := [{ codec_name := some "h264", width := 1920, height := 1080,
                   color_transfer := "", pix_fmt := "yuv420p" }],
    astreams := [{ codec_name := some "aac" }],
    sstreams := [{ index := 2, codec_name := some "subrip", language := "en" }] }

/-- An empty probe answer: no usable streams. -/
def emptyProbe : Probe := { vstreams := [], astreams := [], sstreams := [] }

/-- An encoder attempt that exits 0 and leaves the output in place. -/
def okAttempt : EncodeAttempt := { timedOut := false, returncode := 0, dstExists := true }

/-- An encoder attempt that raises TimeoutExpired. -/
def timeoutAttempt : EncodeAttempt := { timedOut := true, returncode := 0, dstExists := false }

/-- An encoder attempt that exits non-zero. -/
def failAttempt : EncodeAttempt := { timedOut := false, returncode := 1, dstExists := false }

/-- An already-optimal mp4 file record with a fresh fingerprint. -/
def fileOpt : FileRec :=
  { path := "a.mp4", stem_mp4 := "a.mp4",
    temp_path := "a_converted_20250101_000000_11aa22bb.mp4", suffix := ".mp4",
    hash := some "h1", probe := optProbe, probeAfter := emptyProbe,
    gpu := okAttempt, cpu := okAttempt }

/-- The empty processing state: neither persisted file exists yet. -/
def stEmpty : PState := { processed := ∅, hashes := ∅ }

/-- Claim C1, counterexample: a source file whose GPU attempt raises
TimeoutExpired while a CPU attempt would have succeeded (exit 0, output
present). convert_to_mp4 reports final failure with the CPU strategy never
attempted, so a GPU timeout is not treated like a non-zero exit and does
not trigger the CPU fallback. -/
theorem c1_counterexample :
    convert_to_mp4 timeoutAttempt okAttempt
      = { success := false, cpuAttempted := false } := by
  decide

/-- Claim C1, amended: the CPU fallback strategy is attempted exactly when
the GPU process runs to completion (no timeout) and either exits non-zero
or produces no output file; a GPU wall-clock timeout instead makes
convert_to_mp4 report final failure immediately, without attempting the
CPU strategy. -/
theorem c1_amended (gpu cpu : EncodeAttempt) :
    (gpu.timedOut = true →
        convert_to_mp4 gpu cpu = { success := false, cpuAttempted := false })
      ∧ (gpu.timedOut = false → ¬(gpu.returncode = 0 ∧ gpu.dstExists = true) →
          (convert_to_mp4 gpu cpu).cpuAttempted = true) := by
  constructor
  · intro h
    simp [convert_to_mp4, h]
  · intro h hng
    simp only [convert_to_mp4, h, Bool.false_eq_true, if_false, if_neg hng]
    split_ifs <;> rfl

/-- Claim C1, witness for the amended theorem at concrete attempts: a
timed-out GPU attempt yields immediate failure, and a non-zero GPU exit
reaches the CPU attempt. -/
theorem c1_amended_witness :
    convert_to_mp4 timeoutAttempt okAttempt = { success := false, cpuAttempted := false }
      ∧ (convert_to_mp4 failAttempt okAttempt).cpuAttempted = true :=
  ⟨(c1_amended timeoutAttempt okAttempt).1 rfl,
   (c1_amended failAttempt okAttempt).2 rfl (by decide)⟩

end BatchConvert

namespace BatchConvert

/-- Every recorded text subtitle track of the classification loop points
back, by its recorded index minus the starting counter, to the subtitle
stream at that position of the enumerated list. -/
theorem classifySubsFrom_text_spec :
    ∀ (l : List SStream) (i : Nat), ∀ t ∈ (classifySubsFrom i l).1,
      ∃ j s, t.1 = i + j ∧ l.get? j = some s
        ∧ s.codec_name.getD "unknown" = t.2.1 ∧ s.language = t.2.2 := by
  intro l
  induction l with
  | nil => intro i t ht; simp [classifySubsFrom] at ht
  | cons s rest ih =>
    intro i t ht
    simp only [classifySubsFrom] at ht
    split_ifs at ht with h1 h2
    · rcases List.mem_cons.mp ht with h | h
      · refine ⟨0, s, ?_, rfl, ?_, ?_⟩
        · rw [h]; simp
        · rw [h]
        · rw [h]
      · rcases ih (i + 1) t h with ⟨j, s2, hj, hget, hc, hl⟩
        refine ⟨j + 1, s2, ?_, ?_, hc, hl⟩
        · rw [hj]; omega
        · simpa using hget
    · rcases ih (i + 1) t ht with ⟨j, s2, hj, hget, hc, hl⟩
      refine ⟨j + 1, s2, ?_, ?_, hc, hl⟩
      · rw [hj]; omega
      · simpa using hget
    · rcases ih (i + 1) t ht with ⟨j, s2, hj, hget, hc, hl⟩
      refine ⟨j + 1, s2, ?_, ?_, hc, hl⟩
      · rw [hj]; omega
      · simpa using hget

/-- Image analogue of the classification lemma. -/
theorem classifySubsFrom_image_spec :
    ∀ (l : List SStream) (i : Nat), ∀ t ∈ (classifySubsFrom i l).2,
      ∃ j s, t.1 = i + j ∧ l.get? j = some s
        ∧ s.codec_name.getD "unknown" = t.2.1 ∧ s.language = t.2.2 := by
  intro l
  induction l with
  | nil => intro i t ht; simp [classifySubsFrom] at ht
  | cons s rest ih =>
    intro i t ht
    simp only [classifySubsFrom] at ht
    split_ifs at ht with h1 h2
    · rcases ih (i + 1) t ht with ⟨j, s2, hj, hget, hc, hl⟩
      refine ⟨j + 1, s2, ?_, ?_, hc, hl⟩
      · rw [hj]; omega
      · simpa using hget
    · rcases List.mem_cons.mp ht with h | h
      · refine ⟨0, s, ?_, rfl, ?_, ?_⟩
        · rw [h]; simp
        · rw [h]
        · rw [h]
      · rcases ih (i + 1) t h with ⟨j, s2, hj, hget, hc, hl⟩
        refine ⟨j + 1, s2, ?_, ?_, hc, hl⟩
        · rw [hj]; omega
        · simpa using hget
    · rcases ih (i + 1) t ht with ⟨j, s2, hj, hget, hc, hl⟩
      refine ⟨j + 1, s2, ?_, ?_, hc, hl⟩
      · rw [hj]; omega
      · simpa using hget

/-- The track lists of check_video_info are exactly the classification of
the subtitle stream list starting at counter 0. -/
theorem check_video_info_tracks (p : Probe) :
    (check_video_info p).text_sub_tracks = (classifySubsFrom 0 p.sstreams).1
      ∧ (check_video_info p).image_sub_tracks = (classifySubsFrom 0 p.sstreams).2 := by
  unfold check_video_info
  rcases p.vstreams <;> rcases p.astreams <;> exact ⟨rfl, rfl⟩

/-- Claim C10: the index recorded for each subtitle track (text or image)
is its 0-based position within the list of subtitle streams returned by
the subtitle-stream query — the stream found at that list position is the
recorded one — not the global container stream index carried in the
stream's own index field; and for every track that is extracted, the
encoder invocation passes exactly the recorded index in its stream-map
selector, the string 0: followed by the recorded index, at the argument
position after -map. -/
theorem c10_subtitle_track_indices (p : Probe) (videoFile stem : String) (disk : Finset String) :
    (∀ t ∈ (check_video_info p).text_sub_tracks,
        ∃ s, p.sstreams.get? t.1 = some s
          ∧ s.codec_name.getD "unknown" = t.2.1 ∧ s.language = t.2.2)
      ∧ (∀ t ∈ (check_video_info p).image_sub_tracks,
          ∃ s, p.sstreams.get? t.1 = some s
            ∧ s.codec_name.getD "unknown" = t.2.1 ∧ s.language = t.2.2)
      ∧ (∀ t ∈ (check_video_info p).text_sub_tracks,
          text_sub_out_name stem t.1 t.2.2 ∉ disk →
            text_sub_cmd videoFile stem t
                ∈ extract_text_subs_if_any videoFile stem (check_video_info p).text_sub_tracks disk
              ∧ (text_sub_cmd videoFile stem t).get? 5 = some "-map"
              ∧ (text_sub_cmd videoFile stem t).get? 6 = some ("0:" ++ Nat.repr t.1))
      ∧ (∀ t ∈ (check_video_info p).image_sub_tracks,
          image_sub_out_name stem t.1 t.2.2 ∉ disk →
            image_sub_cmd videoFile stem t
                ∈ extract_image_subs_if_any videoFile stem (check_video_info p).image_sub_tracks disk
              ∧ (image_sub_cmd videoFile stem t).get? 5 = some "-map"
              ∧ (image_sub_cmd videoFile stem t).get? 6 = some ("0:" ++ Nat.repr t.1)) := by
  rcases check_video_info_tracks p with ⟨htext, himg⟩
  refine ⟨?_, ?_, ?_, ?_⟩
  · intro t ht
    rw [htext] at ht
    rcases classifySubsFrom_text_spec p.sstreams 0 t ht with ⟨j, s, hj, hget, hc, hl⟩
    refine ⟨s, ?_, hc, hl⟩
    rw [hj, Nat.zero_add]
    exact hget
  · intro t ht
    rw [himg] at ht
    rcases classifySubsFrom_image_spec p.sstreams 0 t ht with ⟨j, s, hj, hget, hc, hl⟩
    refine ⟨s, ?_, hc, hl⟩
    rw [hj, Nat.zero_add]
    exact hget
  · intro t ht hnd
    refine ⟨?_, rfl, rfl⟩
    unfold extract_text_subs_if_any
    exact List.mem_filterMap.mpr ⟨t, ht, by rw [if_neg hnd]⟩
  · intro t ht hnd
    refine ⟨?_, rfl, rfl⟩
    unfold extract_image_subs_if_any
    exact List.mem_filterMap.mpr ⟨t, ht, by rw [if_neg hnd]⟩

/-- Claim C10, witness: a probe with two subtitle streams whose global
container indices are 3 and 4; the subrip stream sits at list position 1,
so the recorded index is 1 (not 4) and the map selector for it is the
string 0:1. -/
theorem c10_witness :
    ∃ s, ([{ index := 3, codec_name := some "hdmv_pgs_subtitle", language := "" },
           { index := 4, codec_name := some "subrip", language := "en" }] : List SStream).get? 1
          = some s
      ∧ s.codec_name.getD "unknown" = "subrip" ∧ s.language = "en" :=
  (c10_subtitle_track_indices
      { vstreams := [], astreams := [],
        sstreams := [{ index := 3, codec_name := some "hdmv_pgs_subtitle", language := "" },
                     { index := 4, codec_name := some "subrip", language := "en" }] }
      "v.mp4" "v" ∅).1
    (1, "subrip", "en") (by decide)

end BatchConvert

namespace BatchConvert

/-- Claim C6: for every file whose fingerprint step succeeds, the per-file
decision taken by process_video is exactly the first-match-wins chain of
the spec, in the order: already handled, fingerprint seen, both codecs
unknown, policy flag with 4K or HDR, target codec and audio and container,
otherwise convert; and the duplicate decision deletes the file from
disk. -/
theorem c6_decision_order (cfg : Config) (f : FileRec) (st : PState) (disk : Finset String)
    (h : String) (hh : f.hash = some h) :
    decisionOf (processVideo cfg f st disk).outcome
        = some (specDecide cfg f.path (check_video_info f.probe) f.suffix h st)
      ∧ ((processVideo cfg f st disk).outcome = Outcome.skipDuplicate →
          (processVideo cfg f st disk).disk = disk.erase f.path) := by
  by_cases hp : f.path ∈ st.processed
  · rw [processVideo_skip cfg f st disk hp]
    simp [specDecide, decisionOf, hp]
  · by_cases hmem : h ∈ st.hashes
    · rw [processVideo_dup cfg f st disk h hp hh hmem]
      simp [specDecide, decisionOf, hp, hmem]
    · rw [processVideo_fresh cfg f st disk h hp hh hmem]
      constructor
      · simp only [processAfterDedup, specDecide]
        rw [if_neg hp, if_neg hmem]
        split_ifs <;> rfl
      · have hno : (processAfterDedup cfg f
            { processed := st.processed, hashes := insert h st.hashes } disk).outcome
              ≠ Outcome.skipDuplicate := by
          simp only [processAfterDedup]
          split_ifs <;> simp
        intro hcon
        exact absurd hcon hno

/-- Claim C6, witness: the decision chain evaluated on a concrete
already-optimal file. -/
theorem c6_decision_order_witness :
    decisionOf (processVideo sourceConfig fileOpt stEmpty {"a.mp4"}).outcome
      = some (specDecide sourceConfig fileOpt.path (check_video_info fileOpt.probe)
          fileOpt.suffix "h1" stEmpty) :=
  (c6_decision_order sourceConfig fileOpt stEmpty {"a.mp4"} "h1" rfl).1

/-- A 1280x720 hevc/ac3 probe answer with no subtitle streams. -/
def hevcProbe : Probe :=
  { vstreams := [{ codec_name := some "hevc", width := 1280, height := 720,
                   color_transfer := "", pix_fmt := "yuv420p" }],
    astreams := [{ codec_name := some "ac3" }],
    sstreams := [] }

/-- A convertible mkv file record whose two encoder attempts both exit
non-zero. -/
def fileFail : FileRec :=
  { path := "b.mkv", stem_mp4 := "b.mp4",
    temp_path := "b_converted_20250101_000000_33cc44dd.mp4", suffix := ".mkv",
    hash := some "h2", probe := hevcProbe, probeAfter := emptyProbe,
    gpu := failAttempt, cpu := failAttempt }

/-- Claim C7: when both encode strategies fail for a file that reached the
conversion branch, the source file is untouched on disk (no path that was
on disk is removed — the only possible disk change is a stranded temp
output joining it), its identity is recorded as handled, the performed
actions are exactly temp cleanup and the conversion attempt (no subtitle
extraction, no deletion, no rename of the source), and any later
process_video call on the same path under the resulting state takes the
already-processed early return, so the file is never retried. -/
theorem c7_total_failure_terminal (cfg : Config) (f : FileRec) (st : PState) (disk : Finset String)
    (h : String) (hp : f.path ∉ st.processed) (hh : f.hash = some h) (hmem : h ∉ st.hashes)
    (hcod : ¬((check_video_info f.probe).video_codec = "unknown"
        ∧ (check_video_info f.probe).audio_codec = "unknown"))
    (hpol : ¬(cfg.skip_4k_or_hdr = true
        ∧ is_4k_or_hdr (check_video_info f.probe).width (check_video_info f.probe).height
            (check_video_info f.probe).color_transfer = true))
    (hopt : ¬((check_video_info f.probe).video_codec = "h264"
        ∧ (["aac", "mp3", "ac3"] : List String).contains (check_video_info f.probe).audio_codec = true
        ∧ f.suffix = ".mp4"))
    (hfail : (convert_to_mp4 f.gpu f.cpu).success = false) :
    processVideo cfg f st disk
        = { st := { processed := insert f.path st.processed, hashes := insert h st.hashes },
            disk := if convertResidual f.gpu f.cpu = true then insert f.temp_path disk else disk,
            effects := [Effect.cleanupTemps f.path, Effect.attemptConvert f.path],
            outcome := Outcome.conversionFailed }
      ∧ (∀ q ∈ disk, q ∈ (processVideo cfg f st disk).disk)
      ∧ ∀ (g : FileRec) (disk2 : Finset String), g.path = f.path →
          processVideo cfg g (processVideo cfg f st disk).st disk2
            = { st := (processVideo cfg f st disk).st, disk := disk2, effects := [],
                outcome := Outcome.skipAlreadyProcessed } := by
  have h1 : processVideo cfg f st disk
      = { st := { processed := insert f.path st.processed, hashes := insert h st.hashes },
          disk := if convertResidual f.gpu f.cpu = true then insert f.temp_path disk else disk,
          effects := [Effect.cleanupTemps f.path, Effect.attemptConvert f.path],
          outcome := Outcome.conversionFailed } := by
    rw [processVideo_fresh cfg f st disk h hp hh hmem]
    simp only [processAfterDedup]
    rw [if_neg hcod, if_neg hpol, if_neg hopt, if_neg (by simp [hfail])]
  refine ⟨h1, ?_, ?_⟩
  · intro q hq
    rw [h1]
    show q ∈ (if convertResidual f.gpu f.cpu = true then insert f.temp_path disk else disk)
    split_ifs
    · exact Finset.mem_insert_of_mem hq
    · exact hq
  · intro g disk2 hg
    apply processVideo_skip
    rw [hg, h1]
    exact Finset.mem_insert_self _ _

/-- Claim C7, witness: the concrete failing file is marked handled with
its disk entry intact, and reprocessing it afterwards is the untouched
early-return skip. -/
theorem c7_total_failure_terminal_witness :
    (processVideo sourceConfig fileFail stEmpty {"b.mkv"}).disk = {"b.mkv"}
      ∧ processVideo sourceConfig fileFail
            (processVideo sourceConfig fileFail stEmpty {"b.mkv"}).st {"b.mkv"}
          = { st := (processVideo sourceConfig fileFail stEmpty {"b.mkv"}).st,
              disk := {"b.mkv"}, effects := [], outcome := Outcome.skipAlreadyProcessed } := by
  have hmain := c7_total_failure_terminal sourceConfig fileFail stEmpty {"b.mkv"} "h2"
    (by decide) rfl (by decide) (by decide) (by decide) (by decide) (by decide)
  exact ⟨by rw [hmain.1]; decide, hmain.2.2 fileFail {"b.mkv"} rfl⟩

end BatchConvert

namespace BatchConvert

/-- A 3840x2160 hevc/ac3 probe answer: the file meets the 4K policy
predicate. -/
def uhdProbe : Probe :=
  { vstreams := [{ codec_name := some "hevc", width := 3840, height := 2160,
                   color_transfer := "", pix_fmt := "yuv420p" }],
    astreams := [{ codec_name := some "ac3" }],
    sstreams := [] }

/-- A 4K mkv file record with fingerprint h3. -/
def fileUhd : FileRec :=
  { path := "c.mkv", stem_mp4 := "c.mp4",
    temp_path := "c_converted_20250101_000000_55ee66ff.mp4", suffix := ".mkv",
    hash := some "h3", probe := uhdProbe, probeAfter := emptyProbe,
    gpu := okAttempt, cpu := okAttempt }

/-- A state that has already seen fingerprint h3. -/
def stSeenH3 : PState := { processed := ∅, hashes := {"h3"} }

/-- Claim C8, counterexample: with the policy flag enabled, a 4K file
whose fingerprint is already in the seen set is deleted from disk by the
duplicate branch (which precedes the 4K/HDR policy check), so such a file
is not left on disk unchanged. -/
theorem c8_counterexample :
    sourceConfig.skip_4k_or_hdr = true
      ∧ is_4k_or_hdr (check_video_info fileUhd.probe).width
          (check_video_info fileUhd.probe).height
          (check_video_info fileUhd.probe).color_transfer = true
      ∧ fileUhd.path ∈ ({"c.mkv"} : Finset String)
      ∧ fileUhd.path ∉ (processVideo sourceConfig fileUhd stSeenH3 {"c.mkv"}).disk := by
  decide

/-- Claim C8, amended: for every file meeting the 4K/HDR predicate with
the policy flag enabled, provided its fingerprint is computed successfully
and is not already in the seen set (otherwise the earlier duplicate branch
deletes the file), no conversion is attempted, the disk is unchanged, the
identity is recorded, and the only possible action is temp-file
cleanup. -/
theorem c8_policy_skip (cfg : Config) (f : FileRec) (st : PState) (disk : Finset String)
    (h : String) (hflag : cfg.skip_4k_or_hdr = true)
    (h4k : is_4k_or_hdr (check_video_info f.probe).width (check_video_info f.probe).height
        (check_video_info f.probe).color_transfer = true)
    (hh : f.hash = some h) (hmem : h ∉ st.hashes) :
    (processVideo cfg f st disk).disk = disk
      ∧ f.path ∈ (processVideo cfg f st disk).st.processed
      ∧ ((processVideo cfg f st disk).effects = []
          ∨ (processVideo cfg f st disk).effects = [Effect.cleanupTemps f.path]) := by
  by_cases hp : f.path ∈ st.processed
  · rw [processVideo_skip cfg f st disk hp]
    exact ⟨rfl, hp, Or.inl rfl⟩
  · rw [processVideo_fresh cfg f st disk h hp hh hmem]
    simp only [processAfterDedup]
    by_cases hcod : (check_video_info f.probe).video_codec = "unknown"
        ∧ (check_video_info f.probe).audio_codec = "unknown"
    · rw [if_pos hcod]
      exact ⟨rfl, Finset.mem_insert_self _ _, Or.inr rfl⟩
    · rw [if_neg hcod, if_pos ⟨hflag, h4k⟩]
      exact ⟨rfl, Finset.mem_insert_self _ _, Or.inr rfl⟩

/-- Claim C8, witness: the concrete 4K file under a fresh state stays on
disk and is marked handled. -/
theorem c8_policy_skip_witness :
    (processVideo sourceConfig fileUhd stEmpty {"c.mkv"}).disk = {"c.mkv"}
      ∧ fileUhd.path ∈ (processVideo sourceConfig fileUhd stEmpty {"c.mkv"}).st.processed :=
  ⟨(c8_policy_skip sourceConfig fileUhd stEmpty {"c.mkv"} "h3" rfl (by decide) rfl
      (by decide)).1,
   (c8_policy_skip sourceConfig fileUhd stEmpty {"c.mkv"} "h3" rfl (by decide) rfl
      (by decide)).2.1⟩

/-- Claim C4, counterexample: an already-optimal file with a text subtitle
track. The skip branch still invokes the subtitle extractor and records
the file's fingerprint, so adding the identity to the handled set is not
the only effect. -/
theorem c4_counterexample :
    (processVideo sourceConfig fileOpt stEmpty {"a.mp4"}).outcome = Outcome.alreadyOptimal
      ∧ Effect.extractTextSubs [(0, "subrip", "en")]
          ∈ (processVideo sourceConfig fileOpt stEmpty {"a.mp4"}).effects
      ∧ (processVideo sourceConfig fileOpt stEmpty {"a.mp4"}).st.hashes ≠ stEmpty.hashes := by
  decide

/-- Claim C4, amended: for a file whose fingerprint step succeeds, a
Skip(already-processed) outcome changes nothing at all; Skip(unprobeable)
and Skip(policy-4k-hdr) leave the disk unchanged with the identity added
and the fingerprint recorded, the only action being temp cleanup; and
Skip(already-optimal) does the same except that it additionally performs
subtitle extraction for the file's recorded tracks — the file itself is
still not converted, deleted, or renamed. -/
theorem c4_skip_effects (cfg : Config) (f : FileRec) (st : PState) (disk : Finset String)
    (h : String) (hh : f.hash = some h) :
    ((processVideo cfg f st disk).outcome = Outcome.skipAlreadyProcessed →
        processVideo cfg f st disk
          = { st := st, disk := disk, effects := [], outcome := Outcome.skipAlreadyProcessed })
      ∧ ((processVideo cfg f st disk).outcome = Outcome.skipUnprobeable →
          processVideo cfg f st disk
            = { st := { processed := insert f.path st.processed, hashes := insert h st.hashes },
                disk := disk, effects := [Effect.cleanupTemps f.path],
                outcome := Outcome.skipUnprobeable })
      ∧ ((processVideo cfg f st disk).outcome = Outcome.skipPolicy →
          processVideo cfg f st disk
            = { st := { processed := insert f.path st.processed, hashes := insert h st.hashes },
                disk := disk, effects := [Effect.cleanupTemps f.path],
                outcome := Outcome.skipPolicy })
      ∧ ((processVideo cfg f st disk).outcome = Outcome.alreadyOptimal →
          processVideo cfg f st disk
            = { st := { processed := insert f.path st.processed, hashes := insert h st.hashes },
                disk := disk,
                effects := Effect.cleanupTemps f.path :: subEffects (check_video_info f.probe),
                outcome := Outcome.alreadyOptimal }) := by
  by_cases hp : f.path ∈ st.processed
  · rw [processVideo_skip cfg f st disk hp]
    simp
  · by_cases hmem : h ∈ st.hashes
    · rw [processVideo_dup cfg f st disk h hp hh hmem]
      simp
    · rw [processVideo_fresh cfg f st disk h hp hh hmem]
      simp only [processAfterDedup]
      split_ifs <;> simp

/-- Claim C4, witness for the amended theorem: the concrete already-optimal
file takes exactly the described extraction-augmented skip. -/
theorem c4_skip_effects_witness :
    processVideo sourceConfig fileOpt stEmpty {"a.mp4"}
      = { st := { processed := insert fileOpt.path stEmpty.processed,
                  hashes := insert "h1" stEmpty.hashes },
          disk := {"a.mp4"},
          effects := Effect.cleanupTemps fileOpt.path
              :: subEffects (check_video_info fileOpt.probe),
          outcome := Outcome.alreadyOptimal } :=
  (c4_skip_effects sourceConfig fileOpt stEmpty {"a.mp4"} "h1" rfl).2.2.2 (by decide)

/-- A file record whose hash step raises IOError (the file cannot be
opened for fingerprinting). -/
def fileBad : FileRec :=
  { path := "d.mkv", stem_mp4 := "d.mp4",
    temp_path := "d_converted_20250101_000000_77aa88bb.mp4", suffix := ".mkv",
    hash := none, probe := hevcProbe, probeAfter := emptyProbe,
    gpu := okAttempt, cpu := okAttempt }

/-- Claim C3, counterexample: a file whose fingerprinting raises IOError
does not proceed through the remaining stages (its identity is never
recorded and no probe or policy branch runs), and the uncaught exception
marks the run as raised, so the batch aborts before persisting state:
even a second, successfully processed file's updates are discarded. -/
theorem c3_counterexample :
    (processVideo sourceConfig fileBad stEmpty {"a.mp4", "d.mkv"}).outcome = Outcome.hashError
      ∧ fileBad.path ∉ (processVideo sourceConfig fileBad stEmpty {"a.mp4", "d.mkv"}).st.processed
      ∧ (runAll sourceConfig [fileBad, fileOpt] stEmpty {"a.mp4", "d.mkv"}).raised = true
      ∧ persistedAfter stEmpty (runAll sourceConfig [fileBad, fileOpt] stEmpty {"a.mp4", "d.mkv"})
          = stEmpty
      ∧ (runAll sourceConfig [fileBad, fileOpt] stEmpty {"a.mp4", "d.mkv"}).st ≠ stEmpty := by
  decide

/-- Claim C3, amended: an IOError from the hash step is not caught: the
per-file worker stops right after temp cleanup with no state change
(neither dedup nor any later stage runs for that file, and its identity is
not recorded), the run that contains the file is marked raised when its
result is collected, and the persisted state is then the state loaded at
start of run — the batch aborts before saving. -/
theorem c3_hash_error_aborts (cfg : Config) (f : FileRec) (rest : List FileRec)
    (st : PState) (disk : Finset String)
    (hh : f.hash = none) (hp : f.path ∉ st.processed) :
    processVideo cfg f st disk
        = { st := st, disk := disk, effects := [Effect.cleanupTemps f.path],
            outcome := Outcome.hashError }
      ∧ (runAll cfg (f :: rest) st disk).raised = true
      ∧ persistedAfter st (runAll cfg (f :: rest) st disk) = st := by
  have h1 := processVideo_hashNone cfg f st disk hp hh
  have h2 : (runAll cfg (f :: rest) st disk).raised = true := by
    simp only [runAll, h1]
    simp
  refine ⟨h1, h2, ?_⟩
  unfold persistedAfter
  rw [if_pos h2]

/-- Claim C3, witness for the amended theorem at the concrete unreadable
file. -/
theorem c3_hash_error_aborts_witness :
    processVideo sourceConfig fileBad stEmpty {"d.mkv"}
        = { st := stEmpty, disk := {"d.mkv"},
            effects := [Effect.cleanupTemps fileBad.path], outcome := Outcome.hashError }
      ∧ persistedAfter stEmpty (runAll sourceConfig [fileBad] stEmpty {"d.mkv"}) = stEmpty :=
  ⟨(c3_hash_error_aborts sourceConfig fileBad [] stEmpty {"d.mkv"} rfl (by decide)).1,
   (c3_hash_error_aborts sourceConfig fileBad [] stEmpty {"d.mkv"} rfl (by decide)).2.2⟩

end BatchConvert

namespace BatchConvert

/-- Claim C9: the handled-identity set is monotone — every per-file
operation can only grow it, and the set persisted at end of run (the
loaded set itself when the run aborted, the in-memory set otherwise) is a
superset of the set loaded at start of run. -/
theorem c9_handled_monotone (cfg : Config) :
    (∀ (f : FileRec) (st : PState) (disk : Finset String),
        st.processed ⊆ (processVideo cfg f st disk).st.processed)
      ∧ (∀ (files : List FileRec) (st : PState) (disk : Finset String),
          st.processed ⊆ (persistedAfter st (runAll cfg files st disk)).processed) := by
  refine ⟨processVideo_mono cfg, ?_⟩
  intro files st disk
  unfold persistedAfter
  split_ifs
  · exact Finset.Subset.refl _
  · exact runAll_mono cfg files st disk

/-- Processing the ordered pair f then g of byte-identical files (same
fingerprint, distinct fresh paths, both on disk, fingerprint unseen, and
the converted name of the first not colliding with the second): the second
file is deleted from disk, the first survives (at its own path or at its
converted target), and both identities are recorded as handled. -/
theorem dedup_pair_ordered (cfg : Config) (f g : FileRec) (st : PState) (disk : Finset String)
    (h : String)
    (hfg : f.path ≠ g.path)
    (hf : f.hash = some h) (hg : g.hash = some h)
    (hpf : f.path ∉ st.processed) (hpg : g.path ∉ st.processed)
    (hmem : h ∉ st.hashes)
    (hdf : f.path ∈ disk) (hdg : g.path ∈ disk)
    (hstem : f.stem_mp4 ≠ g.path) :
    g.path ∉ (runAll cfg [f, g] st disk).disk
      ∧ (f.path ∈ (runAll cfg [f, g] st disk).disk
          ∨ f.stem_mp4 ∈ (runAll cfg [f, g] st disk).disk)
      ∧ f.path ∈ (runAll cfg [f, g] st disk).st.processed
      ∧ g.path ∈ (runAll cfg [f, g] st disk).st.processed := by
  have hfr := processVideo_fresh cfg f st disk h hpf hf hmem
  rcases processAfterDedup_state cfg f { processed := st.processed, hashes := insert h st.hashes }
      disk with ⟨hhash, hself, hc⟩
  have hgp : g.path ∉ (processVideo cfg f st disk).st.processed := by
    rw [hfr]
    rcases hc with ⟨hpr, _⟩ | ⟨hpr, _⟩ | ⟨hpr, _, _, _⟩
    · rw [hpr]
      intro hcon
      rcases Finset.mem_insert.mp hcon with hcon | hcon
      · exact hfg (hcon.symm)
      · exact hpg hcon
    · rw [hpr]
      intro hcon
      rcases Finset.mem_insert.mp hcon with hcon | hcon
      · exact hstem (hcon.symm)
      · rcases Finset.mem_insert.mp hcon with hcon | hcon
        · exact hfg (hcon.symm)
        · exact hpg hcon
    · rw [hpr]
      intro hcon
      rcases Finset.mem_insert.mp hcon with hcon | hcon
      · exact hfg (hcon.symm)
      · exact hpg hcon
  have hgd : g.path ∈ (processVideo cfg f st disk).disk := by
    rw [hfr]
    rcases hc with ⟨_, hd⟩ | ⟨_, hd⟩ | ⟨_, hd, _, _⟩
    · rw [hd]; exact hdg
    · rw [hd]
      exact Finset.mem_insert_of_mem (Finset.mem_erase.mpr ⟨fun hcon => hfg hcon.symm, hdg⟩)
    · rw [hd]
      exact Finset.mem_insert_of_mem hdg
  have hgh : h ∈ (processVideo cfg f st disk).st.hashes := by
    rw [hfr, hhash]
    exact Finset.mem_insert_self _ _
  have hfrep : f.path ∈ (processVideo cfg f st disk).disk
      ∨ f.stem_mp4 ∈ (processVideo cfg f st disk).disk := by
    rw [hfr]
    rcases hc with ⟨_, hd⟩ | ⟨_, hd⟩ | ⟨_, hd, _, _⟩
    · left; rw [hd]; exact hdf
    · right; rw [hd]; exact Finset.mem_insert_self _ _
    · left; rw [hd]; exact Finset.mem_insert_of_mem hdf
  have hfp : f.path ∈ (processVideo cfg f st disk).st.processed := by
    rw [hfr]; exact hself
  have hdup := processVideo_dup cfg g (processVideo cfg f st disk).st
      (processVideo cfg f st disk).disk h hgp hg hgh
  have hpair : runAll cfg [f, g] st disk
      = { st := (processVideo cfg g (processVideo cfg f st disk).st
              (processVideo cfg f st disk).disk).st,
          disk := (processVideo cfg g (processVideo cfg f st disk).st
              (processVideo cfg f st disk).disk).disk,
          effects := (processVideo cfg f st disk).effects
              ++ ((processVideo cfg g (processVideo cfg f st disk).st
                  (processVideo cfg f st disk).disk).effects ++ []),
          raised := decide ((processVideo cfg f st disk).outcome = Outcome.hashError)
              || (decide ((processVideo cfg g (processVideo cfg f st disk).st
                  (processVideo cfg f st disk).disk).outcome = Outcome.hashError) || false) } := rfl
  rw [hpair, hdup]
  refine ⟨Finset.not_mem_erase _ _, ?_, ?_, ?_⟩
  · rcases hfrep with hrep | hrep
    · left
      exact Finset.mem_erase.mpr ⟨hfg, hrep⟩
    · right
      exact Finset.mem_erase.mpr ⟨hstem, hrep⟩
  · exact Finset.mem_insert_of_mem hfp
  · exact Finset.mem_insert_self _ _

/-- Claim C2: for a pair of distinct files that are byte-identical within
the fingerprint prefix (equal fingerprints), both fresh to the run and
present on disk, with no name collision between either file's converted
target and the other's path: whichever of the two orders the run processes
them in, the file processed second is deleted from disk, the one processed
first survives (at its own path, or at its converted target if it was
converted), and both original identities end up in the handled set. -/
theorem c2_duplicate_pair (cfg : Config) (f g : FileRec) (st : PState) (disk : Finset String)
    (h : String)
    (hfg : f.path ≠ g.path)
    (hf : f.hash = some h) (hg : g.hash = some h)
    (hpf : f.path ∉ st.processed) (hpg : g.path ∉ st.processed)
    (hmem : h ∉ st.hashes)
    (hdf : f.path ∈ disk) (hdg : g.path ∈ disk)
    (hstemf : f.stem_mp4 ≠ g.path) (hstemg : g.stem_mp4 ≠ f.path) :
    (g.path ∉ (runAll cfg [f, g] st disk).disk
        ∧ (f.path ∈ (runAll cfg [f, g] st disk).disk
            ∨ f.stem_mp4 ∈ (runAll cfg [f, g] st disk).disk)
        ∧ f.path ∈ (runAll cfg [f, g] st disk).st.processed
        ∧ g.path ∈ (runAll cfg [f, g] st disk).st.processed)
      ∧ (f.path ∉ (runAll cfg [g, f] st disk).disk
          ∧ (g.path ∈ (runAll cfg [g, f] st disk).disk
              ∨ g.stem_mp4 ∈ (runAll cfg [g, f] st disk).disk)
          ∧ g.path ∈ (runAll cfg [g, f] st disk).st.processed
          ∧ f.path ∈ (runAll cfg [g, f] st disk).st.processed) :=
  ⟨dedup_pair_ordered cfg f g st disk h hfg hf hg hpf hpg hmem hdf hdg hstemf,
   dedup_pair_ordered cfg g f st disk h (Ne.symm hfg) hg hf hpg hpf hmem hdg hdf hstemg⟩

/-- Two byte-identical convertible mkv files at distinct paths. -/
def fileTwinA : FileRec :=
  { path := "e1.mkv", stem_mp4 := "e1.mp4",
    temp_path := "e1_converted_20250101_000000_99cc00dd.mp4", suffix := ".mkv",
    hash := some "h9", probe := hevcProbe, probeAfter := emptyProbe,
    gpu := okAttempt, cpu := okAttempt }

/-- Second copy of the identical content. -/
def fileTwinB : FileRec :=
  { path := "e2.mkv", stem_mp4 := "e2.mp4",
    temp_path := "e2_converted_20250101_000000_aabbccdd.mp4", suffix := ".mkv",
    hash := some "h9", probe := hevcProbe, probeAfter := emptyProbe,
    gpu := okAttempt, cpu := okAttempt }

/-- Claim C2, witness: the concrete identical pair, in both orders. -/
theorem c2_duplicate_pair_witness :
    fileTwinB.path ∉ (runAll sourceConfig [fileTwinA, fileTwinB] stEmpty {"e1.mkv", "e2.mkv"}).disk
      ∧ fileTwinA.path
          ∈ (runAll sourceConfig [fileTwinB, fileTwinA] stEmpty {"e1.mkv", "e2.mkv"}).st.processed := by
  have hmain := c2_duplicate_pair sourceConfig fileTwinA fileTwinB stEmpty {"e1.mkv", "e2.mkv"}
    "h9" (by decide) rfl rfl (by decide) (by decide) (by decide) (by decide) (by decide)
    (by decide) (by decide)
  exact ⟨hmain.1.1, hmain.2.2.2.2⟩

/-- Probe answer of the stranded partial output as the next scan sees it:
a playable h264/aac stream pair with no subtitle streams. -/
def mp4Probe : Probe :=
  { vstreams := [{ codec_name := some "h264", width := 1280, height := 720,
                   color_transfer := "", pix_fmt := "yuv420p" }],
    astreams := [{ codec_name := some "aac" }],
    sstreams := [] }

/-- A convertible mkv whose GPU attempt raises TimeoutExpired after having
written a partial destination file: the conversion fails and the temp
output is stranded on disk. -/
def fileStranded : FileRec :=
  { path := "g.mkv", stem_mp4 := "g.mp4",
    temp_path := "g_converted_20250101_000000_ab12cd34.mp4", suffix := ".mkv",
    hash := some "hA", probe := hevcProbe, probeAfter := emptyProbe,
    gpu := { timedOut := true, returncode := 0, dstExists := true }, cpu := okAttempt }

/-- The stranded temp output as the second run sees it: an ordinary mp4
video file with its own fingerprint. -/
def fileTempOut : FileRec :=
  { path := "g_converted_20250101_000000_ab12cd34.mp4",
    stem_mp4 := "g_converted_20250101_000000_ab12cd34.mp4",
    temp_path := "g_converted_20250101_000000_ab12cd34_converted_20250102_000000_cd34ef56.mp4",
    suffix := ".mp4", hash := some "hB", probe := mp4Probe, probeAfter := emptyProbe,
    gpu := okAttempt, cpu := okAttempt }

/-- Deterministic external world for the idempotence counterexample. -/
def envStranded : String → FileRec := fun p =>
  if p = "g.mkv" then fileStranded else fileTempOut

/-- Claim C5, counterexample: a single convertible file whose GPU attempt
times out after writing a partial output. Run 1 completes without raising,
leaves the source untouched and marked handled, and strands the temp file
on disk; the source's early return in run 2 precedes temp cleanup, so the
second scan picks the stranded file up as a fresh video file and processes
it — the handled set after run 2 differs from the set after run 1, so the
second run is not a no-op. -/
theorem c5_counterexample :
    (runScan sourceConfig envStranded stEmpty {"g.mkv"}).raised = false
      ∧ (runScan sourceConfig envStranded
            (runScan sourceConfig envStranded stEmpty {"g.mkv"}).st
            (runScan sourceConfig envStranded stEmpty {"g.mkv"}).disk).st
          ≠ (runScan sourceConfig envStranded stEmpty {"g.mkv"}).st := by
  have hs1 : scanList ({"g.mkv"} : Finset String) = ["g.mkv"] :=
    Finset.sort_singleton (· ≤ ·) "g.mkv"
  have h1r : (runScan sourceConfig envStranded stEmpty {"g.mkv"}).raised = false := by
    show (runAll sourceConfig ((scanList {"g.mkv"}).map envStranded) stEmpty {"g.mkv"}).raised
      = false
    rw [hs1]
    decide
  have h1st : (runScan sourceConfig envStranded stEmpty {"g.mkv"}).st
      = { processed := {"g.mkv"}, hashes := {"hA"} } := by
    show (runAll sourceConfig ((scanList {"g.mkv"}).map envStranded) stEmpty {"g.mkv"}).st = _
    rw [hs1]
    decide
  have h1d : (runScan sourceConfig envStranded stEmpty {"g.mkv"}).disk
      = {"g_converted_20250101_000000_ab12cd34.mp4", "g.mkv"} := by
    show (runAll sourceConfig ((scanList {"g.mkv"}).map envStranded) stEmpty {"g.mkv"}).disk = _
    rw [hs1]
    decide
  have hswap : ({"g_converted_20250101_000000_ab12cd34.mp4", "g.mkv"} : Finset String)
      = {"g.mkv", "g_converted_20250101_000000_ab12cd34.mp4"} := by
    decide
  have hs2 : scanList ({"g.mkv", "g_converted_20250101_000000_ab12cd34.mp4"} : Finset String)
      = ["g.mkv", "g_converted_20250101_000000_ab12cd34.mp4"] := by
    unfold scanList
    rw [Finset.sort_insert, Finset.sort_singleton]
    · intro b hb
      rw [Finset.mem_singleton] at hb
      subst hb
      rw [String.le_iff_toList_le]
      decide
    · decide
  rw [h1st, h1d]
  refine ⟨h1r, ?_⟩
  rw [hswap]
  show (runAll sourceConfig
      ((scanList {"g.mkv", "g_converted_20250101_000000_ab12cd34.mp4"}).map envStranded)
      { processed := {"g.mkv"}, hashes := {"hA"} }
      {"g.mkv", "g_converted_20250101_000000_ab12cd34.mp4"}).st
    ≠ { processed := {"g.mkv"}, hashes := {"hA"} }
  rw [hs2]
  decide

/-- Claim C5, amended: running the whole pipeline a second time after a
completed (non-raising) first run, with the same deterministic external
world and no filesystem changes in between, is a no-op — provided no
scanned file's conversion fails while leaving a residual output file
(otherwise the stranded temp output survives run 1, is scanned by run 2
as a fresh file, and is processed, as the counterexample shows). Under
that proviso the handled set and the disk after run 2 equal those after
run 1, no effects are performed, and nothing raises. -/
theorem c5_second_run_noop (cfg : Config) (env : String → FileRec)
    (st0 : PState) (disk0 : Finset String)
    (henv : ∀ p, (env p).path = p)
    (hres : ∀ p, (convert_to_mp4 (env p).gpu (env p).cpu).success = true
        ∨ convertResidual (env p).gpu (env p).cpu = false)
    (hok : (runScan cfg env st0 disk0).raised = false) :
    runScan cfg env (runScan cfg env st0 disk0).st (runScan cfg env st0 disk0).disk
      = { st := (runScan cfg env st0 disk0).st, disk := (runScan cfg env st0 disk0).disk,
          effects := [], raised := false } := by
  have hcov := runAll_coverage cfg ((scanList disk0).map env) st0 disk0 hok ?_ ?_
  · apply runAll_noop
    intro f hf
    rcases List.mem_map.mp hf with ⟨q, hq, hfq⟩
    have hq1 : q ∈ (runScan cfg env st0 disk0).disk :=
      (Finset.mem_sort (α := String) (· ≤ ·)).mp hq
    have hq2 := hcov q hq1
    rw [← hfq, henv q]
    exact hq2
  · intro f hf
    rcases List.mem_map.mp hf with ⟨q, _, hfq⟩
    rw [← hfq]
    exact hres q
  · intro q hq
    right
    exact List.mem_map.mpr ⟨env q,
      List.mem_map.mpr ⟨q, (Finset.mem_sort (α := String) (· ≤ ·)).mpr hq, rfl⟩, henv q⟩

/-- The deterministic external world used by the idempotence witness:
every path answers as an already-optimal mp4 file. -/
def envOpt : String → FileRec := fun p =>
  { path := p, stem_mp4 := p, temp_path := p ++ ".tmp.mp4", suffix := ".mp4",
    hash := some "h1", probe := optProbe, probeAfter := emptyProbe,
    gpu := okAttempt, cpu := okAttempt }

/-- Claim C5, witness for the amended theorem: a singleton library whose
file converts successfully is processed twice; the second run changes
nothing. -/
theorem c5_second_run_noop_witness :
    runScan sourceConfig envOpt (runScan sourceConfig envOpt stEmpty {"a.mp4"}).st
        (runScan sourceConfig envOpt stEmpty {"a.mp4"}).disk
      = { st := (runScan sourceConfig envOpt stEmpty {"a.mp4"}).st,
          disk := (runScan sourceConfig envOpt stEmpty {"a.mp4"}).disk,
          effects := [], raised := false } :=
  c5_second_run_noop sourceConfig envOpt stEmpty {"a.mp4"} (fun p => rfl)
    (fun p => Or.inl rfl) (by
    show (runAll sourceConfig ((scanList {"a.mp4"}).map envOpt) stEmpty {"a.mp4"}).raised = false
    rw [show scanList ({"a.mp4"} : Finset String) = ["a.mp4"] from Finset.sort_singleton _ _]
    decide)

end BatchConvert
